import Mathlib

/-
Verification of the some-mut library: a handle type over a mutable optional
cell that is statically known to be occupied.  The cell is modelled as an
Option T value; mutation through references is modelled by explicit state
passing.  The internal unchecked unwrap of the source is modelled fallibly
(an Option-valued result whose none case is the branch the source marks as
unreachable), so that totality of the handle operations under the occupancy
invariant is a provable statement rather than an assumption.
-/

/-- SomeMut: a mutable reference to an Option that the source guarantees is
always Some.  The source stores the referenced cell behind the reference; in
the embedding the handle carries the referenced cell state.  The safety
invariant written as a comment on the field in the source is the predicate
SomeMut.Inv below. -/
structure SomeMut (T : Type) where
  cell : Option T

/-- The safety invariant from the source comment on the SomeMut field: the
referenced cell must always be Some. -/
def SomeMut.Inv {T : Type} (s : SomeMut T) : Prop := s.cell.isSome

/-- Rust core Option::take called through a mutable reference: it returns the
old contents and sets the referent to None.  Modelled as the pair of the old
contents and the new cell state. -/
def optTake {T : Type} (o : Option T) : Option T × Option T := (o, none)

/-- Rust core Option::as_ref on the referent of a mutable reference: it is
Some exactly when the option is Some and does not modify the option.  In the
value model it returns the option shape itself. -/
def optAsRef {T : Type} (o : Option T) : Option T := o

/-- Rust core Option::as_mut, likewise non-modifying: the returned mutable
reference points into the payload of the option. -/
def optAsMut {T : Type} (o : Option T) : Option T := o

/-- Rust core Option::unwrap_unchecked: undefined behaviour on None.
Modelled fallibly: a none result marks the forbidden branch. -/
def unwrapUnchecked {T : Type} : Option T → Option T
  | some v => some v
  | none => none

/-- OptionExt::some_mut from the source:
match self { x at Some(_) => Some(SomeMut(x)), None => None }.
The handle wraps the same cell the argument refers to. -/
def OptionExt.some_mut {T : Type} (o : Option T) : Option (SomeMut T) :=
  match o with
  | some v => some ⟨some v⟩
  | none => none

/-- SomeMut::take from the source: self.0.take().unwrap_unchecked().
Option::take first sets the cell to None and hands back the old contents,
which are then unwrapped without a check.  The result pairs the extracted
value with the cell state left behind; none marks the unreachable unchecked
branch. -/
def SomeMut.take {T : Type} (s : SomeMut T) : Option (T × Option T) :=
  (unwrapUnchecked (optTake s.cell).1).map fun v => (v, (optTake s.cell).2)

/-- SomeMut::into_mut from the source: self.0.as_mut().unwrap_unchecked().
The result pairs the value the returned mutable reference points at with the
cell state, which as_mut does not modify; none marks the unchecked branch. -/
def SomeMut.into_mut {T : Type} (s : SomeMut T) : Option (T × Option T) :=
  (unwrapUnchecked (optAsMut s.cell)).map fun v => (v, s.cell)

/-- SomeMut::into_option_mut from the source: returns the wrapped reference
to the original option, that is, the cell itself. -/
def SomeMut.into_option_mut {T : Type} (s : SomeMut T) : Option T := s.cell

/-- Deref::deref for SomeMut from the source:
self.0.as_ref().unwrap_unchecked(). -/
def SomeMut.deref {T : Type} (s : SomeMut T) : Option T :=
  unwrapUnchecked (optAsRef s.cell)

/-- DerefMut::deref_mut for SomeMut from the source:
self.0.as_mut().unwrap_unchecked(); the value read through the returned
reference. -/
def SomeMut.deref_mut {T : Type} (s : SomeMut T) : Option T :=
  unwrapUnchecked (optAsMut s.cell)

/-- Assignment through a mutable reference to the contained value (the
reference produced by deref_mut, as_mut or into_mut): that reference points
into the payload of the cell, so writing w replaces the payload and cannot
change the occupancy discriminant.  This is the host-language semantics of
writing through the returned reference. -/
def SomeMut.writeThrough {T : Type} (s : SomeMut T) (w : T) : SomeMut T :=
  ⟨s.cell.map fun _ => w⟩

/-- Borrow::borrow for SomeMut from the source: the body is self, which
coerces to the value reference through Deref. -/
def SomeMut.borrow {T : Type} (s : SomeMut T) : Option T := s.deref

/-- AsRef::as_ref for SomeMut from the source: the body is self, coerced
through Deref. -/
def SomeMut.as_ref {T : Type} (s : SomeMut T) : Option T := s.deref

/-- AsMut::as_mut for SomeMut from the source: the body is self, coerced
through DerefMut. -/
def SomeMut.as_mut {T : Type} (s : SomeMut T) : Option T := s.deref_mut

/-- PartialEq over a plain value for SomeMut from the source:
T::eq(self, other), with self coerced to the value through Deref.  The
equality of the value type is passed as a function; none marks the unchecked
branch inside deref. -/
def SomeMut.eq {T : Type} (eqT : T → T → Bool) (s : SomeMut T) (w : T) :
    Option Bool :=
  (s.deref).map fun v => eqT v w

/-- PartialOrd over a plain value for SomeMut from the source (the method
named partial_cmp there): T::partial_cmp(self, other), with self coerced to
the value through Deref.  The comparison of the value type is passed as a
function. -/
def SomeMut.pcmp {T : Type} (cmpT : T → T → Option Ordering) (s : SomeMut T)
    (w : T) : Option (Option Ordering) :=
  (s.deref).map fun v => cmpT v w

/-- fmt::Debug for SomeMut from the source: (**self).fmt(f), delegating to
the Debug rendering of the value.  Formatting is modelled as a function from
the value type to rendered text. -/
def SomeMut.fmtDebug {T : Type} (dbgT : T → String) (s : SomeMut T) :
    Option String :=
  (s.deref).map dbgT

/-- fmt::Display for SomeMut from the source: (**self).fmt(f), delegating to
the Display rendering of the value. -/
def SomeMut.fmtDisplay {T : Type} (dispT : T → String) (s : SomeMut T) :
    Option String :=
  (s.deref).map dispT

/-- The operations the library exposes on a live handle, plus dropping the
handle without consuming it.  write is assignment through the mutable
reference obtained from deref_mut, as_mut or into_mut; cmpOp covers the
comparison methods and fmtOp the formatting methods, both read-only. -/
inductive HandleOp (T : Type) where
  | take : HandleOp T
  | deref : HandleOp T
  | derefMut : HandleOp T
  | write : T → HandleOp T
  | intoMut : HandleOp T
  | intoOptionMut : HandleOp T
  | cmpOp : T → HandleOp T
  | fmtOp : HandleOp T
  | drop : HandleOp T
deriving DecidableEq

/-- The cell state after performing one operation on a handle over the cell,
read off the definitions above: take sets the cell to None through
Option::take, a write replaces the payload, and every other operation only
reads the cell. -/
def cellAfter {T : Type} (op : HandleOp T) (s : SomeMut T) : Option T :=
  match op with
  | .take => (optTake s.cell).2
  | .write w => (s.writeThrough w).cell
  | .deref => s.cell
  | .derefMut => s.cell
  | .intoMut => (SomeMut.into_mut s).elim s.cell Prod.snd
  | .intoOptionMut => SomeMut.into_option_mut s
  | .cmpOp _ => s.cell
  | .fmtOp => s.cell
  | .drop => s.cell

/-- The cell state after a sequence of handle operations, each performed on a
handle over the current cell. -/
def cellAfterOps {T : Type} (ops : List (HandleOp T)) (c : Option T) :
    Option T :=
  ops.foldl (fun c op => cellAfter op ⟨c⟩) c

/-- The cell state after a call to some_mut: the returned handle aliases the
cell, so the state after the call is the cell the handle wraps when a handle
is returned, and the untouched original otherwise. -/
def cellAfterSomeMut {T : Type} (o : Option T) : Option T :=
  match OptionExt.some_mut o with
  | some s => s.cell
  | none => o

/-- C1: for every cell in state Occupied(v), acquiring a handle via some_mut
and calling take on it returns exactly v and leaves the cell Empty, and a
subsequent some_mut on that same cell returns nothing. -/
theorem c1_extract_empties {T : Type} (v : T) (s : SomeMut T)
    (hs : OptionExt.some_mut (some v) = some s) :
    s.take = some (v, (none : Option T)) ∧
    ∀ p : T × Option T, s.take = some p → OptionExt.some_mut p.2 = none := by
  have hcell : s = ⟨some v⟩ := by
    simp only [OptionExt.some_mut, Option.some.injEq] at hs
    exact hs.symm
  subst hcell
  refine ⟨rfl, ?_⟩
  intro p hp
  have hp2 : p = (v, none) := by
    simp only [SomeMut.take, optTake, unwrapUnchecked, Option.map_some',
      Option.some.injEq] at hp
    exact hp.symm
  subst hp2
  rfl

/-- Witness for c1_extract_empties at v = 3. -/
theorem c1_extract_empties_witness :
    (SomeMut.mk (some 3) : SomeMut Nat).take = some (3, (none : Option Nat)) ∧
    ∀ p : Nat × Option Nat,
      (SomeMut.mk (some 3) : SomeMut Nat).take = some p →
      OptionExt.some_mut p.2 = none :=
  c1_extract_empties 3 ⟨some 3⟩ rfl

/-- C2: some_mut returns a handle if and only if the cell is Occupied: on an
Empty cell it returns nothing, and on Occupied(v) it returns a handle whose
deref yields exactly v. -/
theorem c2_acquire_iff_occupied {T : Type} (o : Option T) :
    (o = none → OptionExt.some_mut o = none) ∧
    (∀ v : T, o = some v → ∃ s : SomeMut T,
      OptionExt.some_mut o = some s ∧ s.deref = some v) := by
  constructor
  · rintro rfl
    rfl
  · rintro v rfl
    exact ⟨⟨some v⟩, rfl, rfl⟩

/-- Witness for c2_acquire_iff_occupied at the Empty cell and at Occupied 7. -/
theorem c2_acquire_iff_occupied_witness :
    OptionExt.some_mut (none : Option Nat) = none ∧
    ∃ s : SomeMut Nat, OptionExt.some_mut (some 7) = some s ∧
      s.deref = some 7 :=
  ⟨(c2_acquire_iff_occupied (none : Option Nat)).1 rfl,
   (c2_acquire_iff_occupied (some 7)).2 7 rfl⟩

/-- C3: under the handle invariant (the referenced cell is Occupied) every
operation on a live handle is total: take, into_mut, deref and deref_mut all
succeed, so the internal unchecked-unwrap branch is unreachable and no
operation has a failure path. -/
theorem c3_total_under_inv {T : Type} (s : SomeMut T) (h : s.Inv) :
    (s.take).isSome ∧ (s.into_mut).isSome ∧
    (s.deref).isSome ∧ (s.deref_mut).isSome := by
  obtain ⟨c⟩ := s
  cases c with
  | none => exact absurd h (by simp [SomeMut.Inv])
  | some v =>
    refine ⟨rfl, rfl, rfl, rfl⟩

/-- Witness for c3_total_under_inv at a handle over Occupied 0. -/
theorem c3_total_under_inv_witness :
    ((SomeMut.mk (some 0) : SomeMut Nat).take).isSome ∧
    ((SomeMut.mk (some 0) : SomeMut Nat).into_mut).isSome ∧
    ((SomeMut.mk (some 0) : SomeMut Nat).deref).isSome ∧
    ((SomeMut.mk (some 0) : SomeMut Nat).deref_mut).isSome :=
  c3_total_under_inv ⟨some 0⟩ rfl

/-- C4: for a cell in state Occupied(v) and any value w, writing w through a
live handle leaves the cell Occupied, and a subsequent read through the same
handle or through a freshly re-acquired handle yields w. -/
theorem c4_mutate_preserves_occupancy {T : Type} (v w : T) (s : SomeMut T)
    (hs : OptionExt.some_mut (some v) = some s) :
    ((s.writeThrough w).cell).isSome ∧
    (s.writeThrough w).deref = some w ∧
    ∃ s2 : SomeMut T, OptionExt.some_mut ((s.writeThrough w).cell) = some s2 ∧
      s2.deref = some w := by
  have hcell : s = ⟨some v⟩ := by
    simp only [OptionExt.some_mut, Option.some.injEq] at hs
    exact hs.symm
  subst hcell
  exact ⟨rfl, rfl, ⟨some w⟩, rfl, rfl⟩

/-- Witness for c4_mutate_preserves_occupancy at v = 5, w = 7. -/
theorem c4_mutate_preserves_occupancy_witness :
    (((SomeMut.mk (some 5) : SomeMut Nat).writeThrough 7).cell).isSome ∧
    ((SomeMut.mk (some 5) : SomeMut Nat).writeThrough 7).deref = some 7 ∧
    ∃ s2 : SomeMut Nat,
      OptionExt.some_mut (((SomeMut.mk (some 5) : SomeMut Nat).writeThrough
        7).cell) = some s2 ∧ s2.deref = some 7 :=
  c4_mutate_preserves_occupancy 5 7 ⟨some 5⟩ rfl

/-- C5: for a cell in state Occupied(v), converting an acquired handle back
into a cell reference via into_option_mut gives back the Occupied cell, and
an immediate some_mut on it yields a handle again whose deref gives the same
value v. -/
theorem c5_cell_round_trip {T : Type} (v : T) (s : SomeMut T)
    (hs : OptionExt.some_mut (some v) = some s) :
    s.into_option_mut = some v ∧
    ∃ s2 : SomeMut T, OptionExt.some_mut s.into_option_mut = some s2 ∧
      s2.deref = some v := by
  have hcell : s = ⟨some v⟩ := by
    simp only [OptionExt.some_mut, Option.some.injEq] at hs
    exact hs.symm
  subst hcell
  exact ⟨rfl, ⟨some v⟩, rfl, rfl⟩

/-- Witness for c5_cell_round_trip at v = 4. -/
theorem c5_cell_round_trip_witness :
    (SomeMut.mk (some 4) : SomeMut Nat).into_option_mut = some 4 ∧
    ∃ s2 : SomeMut Nat,
      OptionExt.some_mut (SomeMut.mk (some 4) :
        SomeMut Nat).into_option_mut = some s2 ∧ s2.deref = some 4 :=
  c5_cell_round_trip 4 ⟨some 4⟩ rfl

/-- C6: for a cell in state Occupied(v), into_mut returns a reference to the
contained value and leaves the cell Occupied with v, and after a mutation of
the value to w through that reference the cell is Occupied with w. -/
theorem c6_into_mut_preserves_cell {T : Type} (v w : T) (s : SomeMut T)
    (hs : OptionExt.some_mut (some v) = some s) :
    s.into_mut = some (v, some v) ∧
    (s.writeThrough w).cell = some w := by
  have hcell : s = ⟨some v⟩ := by
    simp only [OptionExt.some_mut, Option.some.injEq] at hs
    exact hs.symm
  subst hcell
  exact ⟨rfl, rfl⟩

/-- Witness for c6_into_mut_preserves_cell at v = 6, w = 8. -/
theorem c6_into_mut_preserves_cell_witness :
    (SomeMut.mk (some 6) : SomeMut Nat).into_mut = some (6, some 6) ∧
    ((SomeMut.mk (some 6) : SomeMut Nat).writeThrough 8).cell = some 8 :=
  c6_into_mut_preserves_cell 6 8 ⟨some 6⟩ rfl

/-- C7: for every cell, Empty or Occupied, calling some_mut leaves the cell
state and contents exactly as they were before the call: attempt-acquire is a
pure observation that never transitions or modifies the cell. -/
theorem c7_some_mut_pure {T : Type} (o : Option T) :
    cellAfterSomeMut o = o := by
  cases o <;> rfl

/-- C8: across every sequence of handle operations, the only operation that
transitions the cell from Occupied to Empty is take: take always leaves the
cell Empty, any sequence of operations avoiding take keeps an Occupied cell
Occupied, and every operation other than take and a write leaves the cell
exactly unchanged. -/
theorem c8_only_take_empties {T : Type} (c : Option T) (hc : c.isSome) :
    (∀ s : SomeMut T, cellAfter HandleOp.take s = none) ∧
    (∀ ops : List (HandleOp T), HandleOp.take ∉ ops →
      (cellAfterOps ops c).isSome) ∧
    (∀ op : HandleOp T, op ≠ HandleOp.take →
      (∀ w : T, op ≠ HandleOp.write w) →
      ∀ s : SomeMut T, cellAfter op s = s.cell) := by
  refine ⟨fun s => rfl, ?_, ?_⟩
  · intro ops
    induction ops generalizing c with
    | nil => intro _; exact hc
    | cons op rest ih =>
      intro hmem
      have hop : op ≠ HandleOp.take := fun h => hmem (h ▸ List.mem_cons_self op rest)
      have hrest : HandleOp.take ∉ rest := fun h => hmem (List.mem_cons_of_mem op h)
      have hstep : (cellAfter op ⟨c⟩ : Option T).isSome := by
        obtain ⟨v, hv⟩ := Option.isSome_iff_exists.mp hc
        subst hv
        cases op with
        | take => exact absurd rfl hop
        | write w => rfl
        | deref => exact hc
        | derefMut => exact hc
        | intoMut => rfl
        | intoOptionMut => exact hc
        | cmpOp w => exact hc
        | fmtOp => exact hc
        | drop => exact hc
      exact ih (cellAfter op ⟨c⟩) hstep hrest
  · intro op hop hw s
    cases op with
    | take => exact absurd rfl hop
    | write w => exact absurd rfl (hw w)
    | deref => rfl
    | derefMut => rfl
    | intoMut =>
      obtain ⟨d⟩ := s
      cases d <;> rfl
    | intoOptionMut => rfl
    | cmpOp w => rfl
    | fmtOp => rfl
    | drop => rfl

/-- Witness for c8_only_take_empties: a take-free sequence over Occupied 1
keeps the cell Occupied. -/
theorem c8_only_take_empties_witness :
    (cellAfterOps [HandleOp.deref, HandleOp.write 9, HandleOp.drop]
      (some (1 : Nat))).isSome :=
  (c8_only_take_empties (some (1 : Nat)) rfl).2.1
    [HandleOp.deref, HandleOp.write 9, HandleOp.drop] (by decide)

/-- C9: for a handle over a cell in state Occupied(v) and a plain value w,
the equality test against w delegates exactly to the eq of the value type and
the partial ordering against w delegates exactly to the partial comparison of
the value type, and the Debug and Display output equal the own rendering of
v exactly. -/
theorem c9_delegation {T : Type} (v w : T)
    (eqT : T → T → Bool) (cmpT : T → T → Option Ordering)
    (dbgT dispT : T → String) (s : SomeMut T)
    (hs : OptionExt.some_mut (some v) = some s) :
    s.eq eqT w = some (eqT v w) ∧
    s.pcmp cmpT w = some (cmpT v w) ∧
    s.fmtDebug dbgT = some (dbgT v) ∧
    s.fmtDisplay dispT = some (dispT v) := by
  have hcell : s = ⟨some v⟩ := by
    simp only [OptionExt.some_mut, Option.some.injEq] at hs
    exact hs.symm
  subst hcell
  exact ⟨rfl, rfl, rfl, rfl⟩

/-- Witness for c9_delegation at v = 2, w = 3 over Nat, with decidable
equality, the Nat comparison and the standard numeral rendering. -/
theorem c9_delegation_witness :
    (SomeMut.mk (some 2) : SomeMut Nat).eq (fun a b => a == b) 3 =
      some ((2 : Nat) == 3) ∧
    (SomeMut.mk (some 2) : SomeMut Nat).pcmp (fun a b => some (compare a b))
      3 = some (some (compare (2 : Nat) 3)) ∧
    (SomeMut.mk (some 2) : SomeMut Nat).fmtDebug (fun n => toString n) =
      some (toString (2 : Nat)) ∧
    (SomeMut.mk (some 2) : SomeMut Nat).fmtDisplay (fun n => toString n) =
      some (toString (2 : Nat)) :=
  c9_delegation 2 3 (fun a b => a == b) (fun a b => some (compare a b))
    (fun n => toString n) (fun n => toString n) ⟨some 2⟩ rfl

/-- C10: for a handle over a cell in state Occupied(v), all read accessors
agree: borrow, as_ref and deref each yield the same value v, and as_mut
yields the same target as deref_mut. -/
theorem c10_accessors_agree {T : Type} (v : T) (s : SomeMut T)
    (hs : OptionExt.some_mut (some v) = some s) :
    s.borrow = some v ∧ s.as_ref = some v ∧ s.deref = some v ∧
    s.as_mut = s.deref_mut := by
  have hcell : s = ⟨some v⟩ := by
    simp only [OptionExt.some_mut, Option.some.injEq] at hs
    exact hs.symm
  subst hcell
  exact ⟨rfl, rfl, rfl, rfl⟩

/-- Witness for c10_accessors_agree at v = 11. -/
theorem c10_accessors_agree_witness :
    (SomeMut.mk (some 11) : SomeMut Nat).borrow = some 11 ∧
    (SomeMut.mk (some 11) : SomeMut Nat).as_ref = some 11 ∧
    (SomeMut.mk (some 11) : SomeMut Nat).deref = some 11 ∧
    (SomeMut.mk (some 11) : SomeMut Nat).as_mut =
      (SomeMut.mk (some 11) : SomeMut Nat).deref_mut :=
  c10_accessors_agree 11 ⟨some 11⟩ rfl
